import Mathlib

/-!
Shallow embedding of the kinematic core of vehicle-localization.py: the
Car state, the control mapper (Car.move and handle_movement) and the
Ackermann integrator (Car.apply_equations).  Floating-point scalars are
modelled as real numbers; the Python float modulo with a positive modulus
is modelled by fmod below.
-/

set_option maxRecDepth 8000

namespace VehicleLocalization

/-- Python float modulo: for a positive modulus it returns the
representative of a in [0, b). -/
noncomputable def fmod (a b : ℝ) : ℝ := a - b * ⌊a / b⌋

/-- numpy deg2rad: degrees to radians. -/
noncomputable def deg2rad (x : ℝ) : ℝ := x * Real.pi / 180

/-- math.atan2 y x, with the (-pi, pi] convention, as the argument of the
complex number x + y i. -/
noncomputable def atan2 (y x : ℝ) : ℝ := Complex.arg ⟨x, y⟩

-- Module-level constants of the Python file.
def UPPER_SPEED_LIMIT : ℝ := 300
def LOWER_SPEED_LIMIT : ℝ := 0

-- Class-level constants of Car.
def ANGLE_STEP : ℝ := 1.2
def SPEED_STEP : ℝ := 10

/-- The mutable fields of the Python class Car that take part in the
kinematics (the rendering fields image, width, height, x_pos, y_pos and
past_positions are out of the core). -/
structure Car where
  vel : ℝ
  vel_k_1 : ℝ
  lf : ℝ
  lb : ℝ
  x_k : ℝ
  x_k_1 : ℝ
  y_k : ℝ
  y_k_1 : ℝ
  psi : ℝ
  psi_k_1 : ℝ
  delta_k : ℝ
  delta_k_1 : ℝ
  delta_t : ℝ
  beta_k_1 : ℝ

/-- Car.__init__: field-for-field the constructor body; it performs no
validation of its parameters. -/
def Car.init (vehicle_speed lf lb x0 y0 psi0 df0 dt : ℝ) : Car :=
  { vel := vehicle_speed
    vel_k_1 := 0
    lf := lf
    lb := lb
    x_k := x0
    x_k_1 := x0
    y_k := y0
    y_k_1 := y0
    psi := psi0
    psi_k_1 := psi0
    delta_k := df0
    delta_k_1 := df0
    delta_t := dt
    beta_k_1 := 0 }

/-- The keyword arguments of Car.move; in Python each defaults to None
(falsy), here to false. -/
structure MoveArgs where
  up : Bool := false
  up_left : Bool := false
  up_right : Bool := false
  down : Bool := false
  down_left : Bool := false
  down_right : Bool := false
  speed_up : Bool := false
  speed_down : Bool := false
  not_moving : Bool := false

/-- Car.move: first vel_k_1 is set to vel, then each condition is checked
in source order and applies its assignments. -/
def Car.move (s : Car) (m : MoveArgs) : Car :=
  let s := { s with vel_k_1 := s.vel }
  let s := if m.up then { s with delta_k := 0 } else s
  let s := if m.up_left then { s with delta_k := ANGLE_STEP * (-1) } else s
  let s := if m.up_right then { s with delta_k := ANGLE_STEP } else s
  let s := if m.down then { s with delta_k := 0, vel_k_1 := s.vel_k_1 * (-1) } else s
  let s := if m.down_left then { s with delta_k := ANGLE_STEP, vel_k_1 := s.vel_k_1 * (-1) } else s
  let s := if m.down_right then { s with delta_k := ANGLE_STEP * (-1), vel_k_1 := s.vel_k_1 * (-1) } else s
  let s := if m.speed_up then { s with vel := s.vel + SPEED_STEP } else s
  let s := if m.speed_down then { s with vel := s.vel - SPEED_STEP } else s
  let s := if m.not_moving then { s with vel_k_1 := 0 } else s
  s

/-- Car.apply_equations: snapshot the k-1 fields, then the Ackermann
update of beta, x, y and psi, with psi wrapped modulo two pi. -/
noncomputable def Car.apply_equations (s : Car) : Car :=
  let delta_k_1 := s.delta_k
  let x_k_1 := s.x_k
  let y_k_1 := s.y_k
  let psi_k_1 := s.psi
  let beta_k_1 := atan2 (s.lb * Real.tan (deg2rad delta_k_1)) (s.lf + s.lb)
  { s with
    delta_k_1 := delta_k_1
    x_k_1 := x_k_1
    y_k_1 := y_k_1
    psi_k_1 := psi_k_1
    beta_k_1 := beta_k_1
    x_k := x_k_1 + s.vel_k_1 / 3.6 * s.delta_t * Real.cos (psi_k_1 + beta_k_1)
    y_k := y_k_1 + s.vel_k_1 / 3.6 * s.delta_t * Real.sin (psi_k_1 + beta_k_1)
    psi := fmod (psi_k_1 + s.vel_k_1 / 3.6 * s.delta_t * Real.cos beta_k_1 *
      Real.tan (deg2rad delta_k_1) / (s.lf + s.lb)) (2 * Real.pi) }

/-- The pressed keys sampled each tick that handle_movement reads. -/
structure Keys where
  up : Bool
  down : Bool
  left : Bool
  right : Bool
  f : Bool
  s : Bool

/-- The two speed conditionals of handle_movement: the f key with the
current vel below the upper limit while moving, then the s key with the
current vel above the lower limit while moving. -/
noncomputable def speedGuards (car : Car) (keys : Keys) (moving : Bool) : Car :=
  let car := if keys.f = true ∧ car.vel < UPPER_SPEED_LIMIT ∧ moving = true then
    car.move { speed_up := true } else car
  let car := if keys.s = true ∧ LOWER_SPEED_LIMIT < car.vel ∧ moving = true then
    car.move { speed_down := true } else car
  car

/-- handle_movement: each Python if statement in source order; the six
directional conditionals, then the two speed conditionals, then the
not-moving conditional. -/
noncomputable def handle_movement (car : Car) (keys : Keys) : Car :=
  let moving := keys.up || keys.down || keys.left || keys.right
  let car := if keys.up && !(keys.down || keys.left || keys.right) then
    car.move { up := true } else car
  let car := if keys.up && keys.left && !(keys.down || keys.right) then
    car.move { up_left := true } else car
  let car := if keys.up && keys.right && !(keys.down || keys.left) then
    car.move { up_right := true } else car
  let car := if keys.down && !(keys.up || keys.left || keys.right) then
    car.move { down := true } else car
  let car := if keys.down && keys.left && !(keys.up || keys.right) then
    car.move { down_left := true } else car
  let car := if keys.down && keys.right && !(keys.up || keys.left) then
    car.move { down_right := true } else car
  let car := speedGuards car keys moving
  let car := if moving = false then car.move { not_moving := true } else car
  car

/-- One simulation tick as the main loop runs it on an already running
simulation: the pose update consumes the state left by the previous
control application, then the current keys are applied.  The very first
tick after construction is apply_equations alone (draw runs before the
first key sample). -/
noncomputable def tick (s : Car) (m : MoveArgs) : Car := (s.move m).apply_equations

section FmodLemmas

theorem fmod_eq_fract (a b : ℝ) (hb : b ≠ 0) : fmod a b = b * Int.fract (a / b) := by
  unfold fmod Int.fract
  rw [mul_sub, mul_div_cancel₀ a hb]

theorem fmod_nonneg (a b : ℝ) (hb : 0 < b) : 0 ≤ fmod a b := by
  rw [fmod_eq_fract a b (ne_of_gt hb)]
  exact mul_nonneg hb.le (Int.fract_nonneg _)

theorem fmod_lt (a b : ℝ) (hb : 0 < b) : fmod a b < b := by
  rw [fmod_eq_fract a b (ne_of_gt hb)]
  calc b * Int.fract (a / b) < b * 1 := by
        exact mul_lt_mul_of_pos_left (Int.fract_lt_one _) hb
    _ = b := mul_one b

theorem fmod_eq_self (a b : ℝ) (h0 : 0 ≤ a) (h1 : a < b) : fmod a b = a := by
  have hb : 0 < b := lt_of_le_of_lt h0 h1
  have hfloor : ⌊a / b⌋ = 0 := by
    rw [Int.floor_eq_zero_iff]
    constructor
    · exact div_nonneg h0 hb.le
    · rw [div_lt_one hb]
      exact h1
  unfold fmod
  rw [hfloor]
  simp

end FmodLemmas

/-! ### The section 4.2 reference formulas, written from the words of the
spec, to be compared with Car.apply_equations. -/

/-- Spec 4.2: slip_angle beta = atan2( Lb * tan(steering_angle_rad), Lf + Lb ). -/
noncomputable def specSlipAngle (steer_rad lf lb : ℝ) : ℝ :=
  atan2 (lb * Real.tan steer_rad) (lf + lb)

/-- Spec 4.2: x_new = x + v_mps * dt * cos(heading + beta), v_mps = v / 3.6. -/
noncomputable def specXNew (x v_kmh dt heading beta : ℝ) : ℝ :=
  x + v_kmh / 3.6 * dt * Real.cos (heading + beta)

/-- Spec 4.2: y_new = y + v_mps * dt * sin(heading + beta). -/
noncomputable def specYNew (y v_kmh dt heading beta : ℝ) : ℝ :=
  y + v_kmh / 3.6 * dt * Real.sin (heading + beta)

/-- Spec 4.2: heading_new = (heading + v_mps * dt * cos(beta) *
tan(steering_angle_rad) / (Lf+Lb)) mod two pi. -/
noncomputable def specHeadingNew (heading v_kmh dt beta steer_rad lf lb : ℝ) : ℝ :=
  fmod (heading + v_kmh / 3.6 * dt * Real.cos beta * Real.tan steer_rad / (lf + lb))
    (2 * Real.pi)

/-- A concrete car used by the witnesses: the scenario geometry of spec
section 8 with speed 100, pose at the origin, steer 0, dt 0.1. -/
def demoCar : Car := Car.init 100 1.4 1.2 0 0 0 0 0.1

/-- Claim C1: one call of apply_equations produces exactly the section 4.2
reference values, with beta from the current steer command and v the
previous-tick effective speed in km per h, and the heading wrapped mod two
pi. -/
theorem apply_equations_matches_reference (s : Car) (hL : 0 < s.lf + s.lb) :
    (s.apply_equations).beta_k_1 = specSlipAngle (deg2rad s.delta_k) s.lf s.lb ∧
    (s.apply_equations).x_k =
      specXNew s.x_k s.vel_k_1 s.delta_t s.psi (specSlipAngle (deg2rad s.delta_k) s.lf s.lb) ∧
    (s.apply_equations).y_k =
      specYNew s.y_k s.vel_k_1 s.delta_t s.psi (specSlipAngle (deg2rad s.delta_k) s.lf s.lb) ∧
    (s.apply_equations).psi =
      specHeadingNew s.psi s.vel_k_1 s.delta_t (specSlipAngle (deg2rad s.delta_k) s.lf s.lb)
        (deg2rad s.delta_k) s.lf s.lb := by
  unfold Car.apply_equations specSlipAngle specXNew specYNew specHeadingNew
  exact ⟨rfl, rfl, rfl, rfl⟩

/-- Witness for C1 at the concrete demo car. -/
theorem apply_equations_matches_reference_witness :
    0 < demoCar.lf + demoCar.lb ∧
    ((demoCar.apply_equations).beta_k_1 =
        specSlipAngle (deg2rad demoCar.delta_k) demoCar.lf demoCar.lb ∧
      (demoCar.apply_equations).x_k =
        specXNew demoCar.x_k demoCar.vel_k_1 demoCar.delta_t demoCar.psi
          (specSlipAngle (deg2rad demoCar.delta_k) demoCar.lf demoCar.lb) ∧
      (demoCar.apply_equations).y_k =
        specYNew demoCar.y_k demoCar.vel_k_1 demoCar.delta_t demoCar.psi
          (specSlipAngle (deg2rad demoCar.delta_k) demoCar.lf demoCar.lb) ∧
      (demoCar.apply_equations).psi =
        specHeadingNew demoCar.psi demoCar.vel_k_1 demoCar.delta_t
          (specSlipAngle (deg2rad demoCar.delta_k) demoCar.lf demoCar.lb)
          (deg2rad demoCar.delta_k) demoCar.lf demoCar.lb) :=
  ⟨by norm_num [demoCar, Car.init],
    apply_equations_matches_reference demoCar (by norm_num [demoCar, Car.init])⟩

/-- Claim C2: for every state with positive wheelbase sum and positive dt,
the heading after one update lies in the interval from 0 inclusive to two
pi exclusive. -/
theorem heading_normalized (s : Car) (hL : 0 < s.lf + s.lb) (hdt : 0 < s.delta_t) :
    0 ≤ (s.apply_equations).psi ∧ (s.apply_equations).psi < 2 * Real.pi := by
  have h2pi : 0 < 2 * Real.pi := Real.two_pi_pos
  unfold Car.apply_equations
  exact ⟨fmod_nonneg _ _ h2pi, fmod_lt _ _ h2pi⟩

/-- Witness for C2 at the concrete demo car. -/
theorem heading_normalized_witness :
    0 ≤ (demoCar.apply_equations).psi ∧ (demoCar.apply_equations).psi < 2 * Real.pi :=
  heading_normalized demoCar (by norm_num [demoCar, Car.init])
    (by norm_num [demoCar, Car.init])

/-- Claim C10: apply_equations changes only the pose, the slip angle and
the k-1 snapshots; the speed set-point, the effective speed, the steer
command, both wheelbases and the sample interval are untouched. -/
theorem apply_equations_frame (s : Car) :
    (s.apply_equations).vel = s.vel ∧
    (s.apply_equations).vel_k_1 = s.vel_k_1 ∧
    (s.apply_equations).delta_k = s.delta_k ∧
    (s.apply_equations).lf = s.lf ∧
    (s.apply_equations).lb = s.lb ∧
    (s.apply_equations).delta_t = s.delta_t := by
  unfold Car.apply_equations
  exact ⟨rfl, rfl, rfl, rfl, rfl, rfl⟩

/-! ### Speed guard (claim C3) -/

/-- With forward and the f key held, handle_movement is the forward move
followed by the speed guards. -/
theorem hm_up_f_shape (car : Car) :
    handle_movement car ⟨true, false, false, false, true, false⟩ =
      speedGuards (car.move { up := true }) ⟨true, false, false, false, true, false⟩ true := rfl

/-- With forward and the s key held, handle_movement is the forward move
followed by the speed guards. -/
theorem hm_up_s_shape (car : Car) :
    handle_movement car ⟨true, false, false, false, false, true⟩ =
      speedGuards (car.move { up := true }) ⟨true, false, false, false, false, true⟩ true := rfl

/-- The speed guards with only the f key: an increment by SPEED_STEP
guarded by vel strictly below the upper limit. -/
theorem speedGuards_up_eq (car : Car) :
    speedGuards car ⟨true, false, false, false, true, false⟩ true =
      (if car.vel < UPPER_SPEED_LIMIT then car.move { speed_up := true } else car) := by
  unfold speedGuards
  split_ifs <;> simp_all

/-- The speed guards with only the s key: a decrement by SPEED_STEP
guarded by vel strictly above the lower limit. -/
theorem speedGuards_down_eq (car : Car) :
    speedGuards car ⟨true, false, false, false, false, true⟩ true =
      (if LOWER_SPEED_LIMIT < car.vel then car.move { speed_down := true } else car) := by
  unfold speedGuards
  split_ifs <;> simp_all

/-- A car whose stored speed 295 is below the limit but within one
SPEED_STEP of it. -/
def car295 : Car := Car.init 295 1.4 1.2 0 0 0 0 0.1

/-- Counterexample to claim C3: from stored speed 295 a speed_up tick
yields 305, strictly above max_speed, so the increment is not clamped to
the limit. -/
theorem speed_clamp_counterexample :
    (handle_movement car295 ⟨true, false, false, false, true, false⟩).vel = 305 ∧
    UPPER_SPEED_LIMIT <
      (handle_movement car295 ⟨true, false, false, false, true, false⟩).vel := by
  have hv : (car295.move { up := true }).vel = 295 := rfl
  have hcond : (car295.move { up := true }).vel < UPPER_SPEED_LIMIT := by
    rw [hv]
    norm_num [UPPER_SPEED_LIMIT]
  have h : (handle_movement car295 ⟨true, false, false, false, true, false⟩).vel =
      295 + SPEED_STEP := by
    rw [hm_up_f_shape, speedGuards_up_eq, if_pos hcond]
    rfl
  rw [h]
  norm_num [SPEED_STEP, UPPER_SPEED_LIMIT]

/-- Claim C3 amended: with a directional key held, speed_up adds
SPEED_STEP exactly when the current speed is strictly below max_speed and
otherwise leaves the speed unchanged; speed_down subtracts SPEED_STEP
exactly when the current speed is strictly above min_speed and otherwise
leaves it unchanged.  There is a guard, not a clamp, so a speed less than
one SPEED_STEP below the limit can step past it. -/
theorem speed_guard_amended (s : Car) :
    (handle_movement s ⟨true, false, false, false, true, false⟩).vel =
      (if s.vel < UPPER_SPEED_LIMIT then s.vel + SPEED_STEP else s.vel) ∧
    (handle_movement s ⟨true, false, false, false, false, true⟩).vel =
      (if LOWER_SPEED_LIMIT < s.vel then s.vel - SPEED_STEP else s.vel) := by
  constructor
  · rw [hm_up_f_shape, speedGuards_up_eq, apply_ite Car.vel,
      show (s.move { up := true }).vel = s.vel from rfl]
    split_ifs <;> rfl
  · rw [hm_up_s_shape, speedGuards_down_eq, apply_ite Car.vel,
      show (s.move { up := true }).vel = s.vel from rfl]
    split_ifs <;> rfl

/-! ### Missing construction-time validation (claim C4) -/

/-- Claim C4 evidence: the constructor performs no validation; it accepts
a degenerate geometry with lf + lb = 0 and a non-positive sample interval
and returns a state, so nothing stops the simulation before the per-tick
division by lf + lb. -/
theorem init_accepts_invalid_parameters :
    (Car.init 100 1 (-1) 0 0 0 0 0.1).lf + (Car.init 100 1 (-1) 0 0 0 0 0.1).lb = 0 ∧
    (Car.init 100 1 1 0 0 0 0 (-1)).delta_t = -1 ∧
    (Car.init 9999 1 1 0 0 0 0 0.1).vel = 9999 := by
  norm_num [Car.init]

/-! ### Steering reset (claim C5) -/

/-- A car whose current steer command is the nonzero ANGLE_STEP. -/
def carSteer : Car := Car.init 100 1.4 1.2 0 0 0 ANGLE_STEP 0.1

/-- Counterexample to claim C5: on a tick with no directional input the
not-moving command leaves the stored steering angle at its prior nonzero
value instead of resetting it to 0. -/
theorem steer_reset_counterexample :
    (handle_movement carSteer ⟨false, false, false, false, false, false⟩).delta_k =
      ANGLE_STEP ∧ ANGLE_STEP ≠ (0 : ℝ) := by
  constructor
  · rfl
  · norm_num [ANGLE_STEP]

/-- Claim C5 amended: the straight forward and straight backward commands
reset the stored steering angle to 0, but the not-moving command zeroes
only the effective speed and keeps the steering angle at its prior
value. -/
theorem steer_reset_amended (s : Car) :
    (handle_movement s ⟨true, false, false, false, false, false⟩).delta_k = 0 ∧
    (handle_movement s ⟨false, true, false, false, false, false⟩).delta_k = 0 ∧
    (handle_movement s ⟨false, false, false, false, false, false⟩).delta_k = s.delta_k :=
  ⟨rfl, rfl, rfl⟩

/-! ### Helper lemmas on move and apply_equations -/

/-- apply_equations does not touch the current steer command. -/
theorem apply_equations_delta (s : Car) : (s.apply_equations).delta_k = s.delta_k := rfl

/-- With a zero steer command the tan term vanishes and the heading
update is a bare wrap modulo two pi. -/
theorem apply_equations_psi_zero_steer (s : Car) (hd : s.delta_k = 0) :
    (s.apply_equations).psi = fmod s.psi (2 * Real.pi) := by
  simp only [Car.apply_equations, hd]
  norm_num [deg2rad]

/-- With a zero effective speed the position is unchanged and the
heading update is a bare wrap modulo two pi. -/
theorem apply_equations_zero_speed (s : Car) (hv : s.vel_k_1 = 0) :
    (s.apply_equations).x_k = s.x_k ∧ (s.apply_equations).y_k = s.y_k ∧
    (s.apply_equations).psi = fmod s.psi (2 * Real.pi) := by
  refine ⟨?_, ?_, ?_⟩ <;> simp [Car.apply_equations, hv]

/-- move never touches the heading. -/
theorem move_psi (s : Car) (m : MoveArgs) : (s.move m).psi = s.psi := by
  obtain ⟨u, ul, ur, d, dl, dr, su, sd, nm⟩ := m
  cases u <;> cases ul <;> cases ur <;> cases d <;> cases dl <;> cases dr <;>
    cases su <;> cases sd <;> cases nm <;> rfl

/-- A move command with none of the four turn flags. -/
def noTurn (m : MoveArgs) : Prop :=
  m.up_left = false ∧ m.up_right = false ∧ m.down_left = false ∧ m.down_right = false

/-- A turn-free move keeps a zero steer command at zero: the up and down
branches write 0 and the speed and not-moving branches do not write
delta_k at all. -/
theorem move_noTurn_delta (s : Car) (m : MoveArgs) (hm : noTurn m) (hd : s.delta_k = 0) :
    (s.move m).delta_k = 0 := by
  obtain ⟨u, ul, ur, d, dl, dr, su, sd, nm⟩ := m
  obtain ⟨h1, h2, h3, h4⟩ := hm
  dsimp only at h1 h2 h3 h4
  subst h1 h2 h3 h4
  cases u <;> cases d <;> cases su <;> cases sd <;> cases nm <;>
    first
      | exact hd
      | rfl

/-! ### Straight-line heading invariant (claim C6) -/

/-- A car constructed with heading 7, outside the wrapped range. -/
def carHeading7 : Car := Car.init 50 1.4 1.2 0 0 7 0 0.1

/-- Counterexample to claim C6: a state whose steer command is 0 but
whose heading 7 exceeds two pi has its heading changed by the very first
zero-steer update, which wraps it. -/
theorem straight_line_counterexample :
    carHeading7.delta_k = 0 ∧ (carHeading7.apply_equations).psi ≠ carHeading7.psi := by
  refine ⟨rfl, ?_⟩
  have h1 : (carHeading7.apply_equations).psi = fmod 7 (2 * Real.pi) :=
    apply_equations_psi_zero_steer carHeading7 rfl
  rw [h1, show carHeading7.psi = 7 from rfl]
  have hlt : fmod 7 (2 * Real.pi) < 7 := by
    have h2 := fmod_lt 7 (2 * Real.pi) Real.two_pi_pos
    have hpi : Real.pi < 3.15 := Real.pi_lt_d2
    linarith
  exact ne_of_lt hlt

/-- Claim C6 amended: if the initial heading already lies in the wrapped
range from 0 to two pi - which every updated state satisfies - then any
number of consecutive turn-free ticks, at any speed and direction, leaves
the heading exactly unchanged after each tick. -/
theorem straight_line_heading (s : Car) (ms : List MoveArgs) (hd : s.delta_k = 0)
    (hms : ∀ m ∈ ms, noTurn m) (h0 : 0 ≤ s.psi) (h1 : s.psi < 2 * Real.pi) :
    (ms.foldl tick s).psi = s.psi := by
  induction ms generalizing s with
  | nil => rfl
  | cons m rest ih =>
      have hm : noTurn m := hms m (List.mem_cons_self m rest)
      have hdm : (s.move m).delta_k = 0 := move_noTurn_delta s m hm hd
      have hstep_psi : (tick s m).psi = s.psi := by
        unfold tick
        rw [apply_equations_psi_zero_steer _ hdm, move_psi s m]
        exact fmod_eq_self _ _ h0 h1
      have hstep_delta : (tick s m).delta_k = 0 := by
        unfold tick
        rw [apply_equations_delta]
        exact hdm
      have hrest : ∀ m2 ∈ rest, noTurn m2 := fun m2 hm2 => hms m2 (List.mem_cons_of_mem m hm2)
      rw [List.foldl_cons,
        ih (tick s m) hstep_delta hrest (by rw [hstep_psi]; exact h0)
          (by rw [hstep_psi]; exact h1)]
      exact hstep_psi

/-- Witness for the amended C6 at the demo car and one turn-free tick. -/
theorem straight_line_heading_witness :
    demoCar.delta_k = 0 ∧ (∀ m ∈ [({} : MoveArgs)], noTurn m) ∧
    0 ≤ demoCar.psi ∧ demoCar.psi < 2 * Real.pi ∧
    ([({} : MoveArgs)].foldl tick demoCar).psi = demoCar.psi := by
  have hd : demoCar.delta_k = 0 := rfl
  have hms : ∀ m ∈ [({} : MoveArgs)], noTurn m := by
    intro m hm
    rw [List.mem_singleton] at hm
    subst hm
    exact ⟨rfl, rfl, rfl, rfl⟩
  have h0 : 0 ≤ demoCar.psi := by
    show (0 : ℝ) ≤ 0
    exact le_rfl
  have h1 : demoCar.psi < 2 * Real.pi := by
    show (0 : ℝ) < 2 * Real.pi
    exact Real.two_pi_pos
  exact ⟨hd, hms, h0, h1, straight_line_heading demoCar [{}] hd hms h0 h1⟩

/-! ### Not-moving ticks (claim C7) -/

/-- The move command the not-moving tick issues. -/
def notMovingArgs : MoveArgs := { not_moving := true }

/-- A car constructed with heading 8, outside the wrapped range. -/
def carHeading8 : Car := Car.init 50 1.4 1.2 3 4 8 0 0.1

/-- Counterexample to claim C7: a not-moving tick on a state whose
heading 8 exceeds two pi changes the heading by wrapping it. -/
theorem not_moving_counterexample :
    (tick carHeading8 notMovingArgs).psi ≠ carHeading8.psi := by
  have hv : (carHeading8.move notMovingArgs).vel_k_1 = 0 := rfl
  have happ := apply_equations_zero_speed (carHeading8.move notMovingArgs) hv
  have h1 : (tick carHeading8 notMovingArgs).psi = fmod 8 (2 * Real.pi) := by
    unfold tick
    rw [happ.2.2]
    rfl
  rw [h1, show carHeading8.psi = 8 from rfl]
  have hlt : fmod 8 (2 * Real.pi) < 8 := by
    have h2 := fmod_lt 8 (2 * Real.pi) Real.two_pi_pos
    have hpi : Real.pi < 3.15 := Real.pi_lt_d2
    linarith
  exact ne_of_lt hlt

/-- Claim C7 amended: if the heading already lies in the wrapped range
from 0 to two pi, any number of not-moving ticks leaves position, heading
and the stored speed set-point exactly unchanged; an out-of-range heading
is wrapped once by the first such tick. -/
theorem not_moving_amended (s : Car) (h0 : 0 ≤ s.psi) (h1 : s.psi < 2 * Real.pi) (N : ℕ) :
    ((fun c => tick c notMovingArgs)^[N] s).x_k = s.x_k ∧
    ((fun c => tick c notMovingArgs)^[N] s).y_k = s.y_k ∧
    ((fun c => tick c notMovingArgs)^[N] s).psi = s.psi ∧
    ((fun c => tick c notMovingArgs)^[N] s).vel = s.vel := by
  induction N generalizing s with
  | zero => exact ⟨rfl, rfl, rfl, rfl⟩
  | succ n ih =>
      have hv : (s.move notMovingArgs).vel_k_1 = 0 := rfl
      have happ := apply_equations_zero_speed (s.move notMovingArgs) hv
      have hx : (tick s notMovingArgs).x_k = s.x_k := by
        unfold tick
        rw [happ.1]
        rfl
      have hy : (tick s notMovingArgs).y_k = s.y_k := by
        unfold tick
        rw [happ.2.1]
        rfl
      have hpsi : (tick s notMovingArgs).psi = s.psi := by
        unfold tick
        rw [happ.2.2, show (s.move notMovingArgs).psi = s.psi from rfl]
        exact fmod_eq_self _ _ h0 h1
      have hvel : (tick s notMovingArgs).vel = s.vel := rfl
      simp only [Function.iterate_succ_apply]
      obtain ⟨ihx, ihy, ihpsi, ihvel⟩ := ih (tick s notMovingArgs)
        (by rw [hpsi]; exact h0) (by rw [hpsi]; exact h1)
      exact ⟨by rw [ihx, hx], by rw [ihy, hy], by rw [ihpsi, hpsi], by rw [ihvel, hvel]⟩

/-- Witness for the amended C7 at the demo car with three ticks. -/
theorem not_moving_amended_witness :
    0 ≤ demoCar.psi ∧ demoCar.psi < 2 * Real.pi ∧
    (((fun c => tick c notMovingArgs)^[3] demoCar).x_k = demoCar.x_k ∧
      ((fun c => tick c notMovingArgs)^[3] demoCar).y_k = demoCar.y_k ∧
      ((fun c => tick c notMovingArgs)^[3] demoCar).psi = demoCar.psi ∧
      ((fun c => tick c notMovingArgs)^[3] demoCar).vel = demoCar.vel) := by
  have h0 : 0 ≤ demoCar.psi := by
    show (0 : ℝ) ≤ 0
    exact le_rfl
  have h1 : demoCar.psi < 2 * Real.pi := by
    show (0 : ℝ) < 2 * Real.pi
    exact Real.two_pi_pos
  exact ⟨h0, h1, not_moving_amended demoCar h0 h1 3⟩

/-! ### Simultaneous forward and backward (claim C8) -/

/-- A car with a nonzero steer command and an effective speed that
matches neither the forward nor the backward rule. -/
def carBoth : Car :=
  { vel := 100, vel_k_1 := 5, lf := 1.4, lb := 1.2, x_k := 0, x_k_1 := 0, y_k := 0,
    y_k_1 := 0, psi := 0, psi_k_1 := 0, delta_k := ANGLE_STEP, delta_k_1 := 0,
    delta_t := 0.1, beta_k_1 := 0 }

/-- Counterexample to claim C8: with forward and backward held together
and no left or right, handle_movement leaves the state completely
unchanged - in particular the steer command keeps its prior nonzero
value, though both the forward and the backward rules would write 0 to
it, and the effective speed is neither refreshed nor negated. -/
theorem fwd_bwd_counterexample :
    handle_movement carBoth ⟨true, true, false, false, false, false⟩ = carBoth ∧
    carBoth.delta_k ≠ 0 ∧ carBoth.vel_k_1 ≠ carBoth.vel * (-1) := by
  refine ⟨rfl, ?_, ?_⟩
  · norm_num [carBoth, ANGLE_STEP]
  · norm_num [carBoth]

/-- Claim C8 amended: holding forward and backward together without left
or right fires neither directional rule (each requires the opposite key
to be unheld) and, because a directional key is held, not the not-moving
rule either: the tick applies no command at all and the state is
returned unchanged. -/
theorem fwd_bwd_amended (s : Car) :
    handle_movement s ⟨true, true, false, false, false, false⟩ = s := rfl

/-! ### First tick after construction (claim C9) -/

/-- Counterexample to claim C9: constructed with heading 10, outside the
wrapped range, the very first update changes the heading by wrapping it,
although the initial effective speed is 0. -/
theorem first_tick_counterexample :
    ((Car.init 100 1.4 1.2 0 0 10 5 0.1).apply_equations).psi ≠
      (Car.init 100 1.4 1.2 0 0 10 5 0.1).psi := by
  have hv : (Car.init 100 1.4 1.2 0 0 10 5 0.1).vel_k_1 = 0 := rfl
  have happ := apply_equations_zero_speed (Car.init 100 1.4 1.2 0 0 10 5 0.1) hv
  rw [happ.2.2, show (Car.init 100 1.4 1.2 0 0 10 5 0.1).psi = 10 from rfl]
  have hlt : fmod 10 (2 * Real.pi) < 10 := by
    have h2 := fmod_lt 10 (2 * Real.pi) Real.two_pi_pos
    have hpi : Real.pi < 3.15 := Real.pi_lt_d2
    linarith
  exact ne_of_lt hlt

/-- Claim C9 amended: for any construction parameters, the first update
leaves x and y exactly unchanged because the previous-tick effective
speed is initialized to 0, and it leaves the heading exactly unchanged
provided the initial heading already lies in the wrapped range from 0 to
two pi; otherwise it only wraps the heading. -/
theorem first_tick_amended (vs lf lb x0 y0 psi0 df0 dt : ℝ)
    (h0 : 0 ≤ psi0) (h1 : psi0 < 2 * Real.pi) :
    ((Car.init vs lf lb x0 y0 psi0 df0 dt).apply_equations).x_k = x0 ∧
    ((Car.init vs lf lb x0 y0 psi0 df0 dt).apply_equations).y_k = y0 ∧
    ((Car.init vs lf lb x0 y0 psi0 df0 dt).apply_equations).psi = psi0 := by
  have hv : (Car.init vs lf lb x0 y0 psi0 df0 dt).vel_k_1 = 0 := rfl
  have happ := apply_equations_zero_speed _ hv
  refine ⟨?_, ?_, ?_⟩
  · rw [happ.1]
    rfl
  · rw [happ.2.1]
    rfl
  · rw [happ.2.2, show (Car.init vs lf lb x0 y0 psi0 df0 dt).psi = psi0 from rfl]
    exact fmod_eq_self _ _ h0 h1

/-- Witness for the amended C9 at concrete construction parameters. -/
theorem first_tick_amended_witness :
    (0 : ℝ) ≤ 1 ∧ (1 : ℝ) < 2 * Real.pi ∧
    (((Car.init 100 1.4 1.2 2 3 1 5 0.1).apply_equations).x_k = 2 ∧
      ((Car.init 100 1.4 1.2 2 3 1 5 0.1).apply_equations).y_k = 3 ∧
      ((Car.init 100 1.4 1.2 2 3 1 5 0.1).apply_equations).psi = 1) := by
  have h0 : (0 : ℝ) ≤ 1 := by norm_num
  have h1 : (1 : ℝ) < 2 * Real.pi := by
    have hpi := Real.pi_gt_three
    linarith
  exact ⟨h0, h1, first_tick_amended 100 1.4 1.2 2 3 1 5 0.1 h0 h1⟩

end VehicleLocalization
